import Mathlib

/-!
# Verification of the CAS passport strategy (`src/index.ts`)

This file gives a shallow embedding of the CAS authentication strategy
defined in `src/index.ts` and proves properties of it.

The strategy code delegates to three external collaborators, which are
modelled at their interface boundary:

* the WHATWG `URL` class (`new URL(ref, base)`, `searchParams.set`,
  `searchParams.delete`, `toString`) is modelled by the `Url` structure:
  a serialized pre-query part plus an ordered list of key/value search
  parameters.  Query parsing and serialization are modelled literally
  (`k=v` pairs joined by `&`, empty segments skipped); percent-encoding
  and fragment handling are outside the scope of every property below;
* the XML parser (`xml2js.parseString`) invokes its callback with an
  `(err, result)` pair; the embedding takes that pair as input, with the
  parsed document shaped exactly as the interfaces `CasServiceResponse`,
  `CasAuthenticationSuccess` and `CasAuthenticationFailure` of the source
  (tag names already lower-cased and namespace-stripped, as the parse
  options of the source request);
* the HTTP client (`axios.get`) is modelled as a function from the target
  URL to either a rejection (`Except.error`, the rejected promise) or a
  resolved response (status, status text, body).  An `await` of a
  rejection inside `authenticate`, which has no surrounding try/catch in
  the source, is modelled as `authenticate` returning `Except.error`.

JavaScript truthiness of the inspected values is modelled explicitly:
an express query value is absent (`none`) or a string, and is truthy
exactly when it is present and nonempty; an `err`/`profile` argument of
the verified callback is truthy exactly when it is `some`.
-/

namespace PassportCas

/-! ## Character-list helpers for the URL model -/

/-- Split a character list at the first occurrence of `c`: returns the part
before the first `c` and, when `c` occurs, the remainder after it. -/
def splitAtFirst (c : Char) : List Char → List Char × Option (List Char)
  | [] => ([], none)
  | x :: xs =>
    if x = c then ([], some xs)
    else
      let r := splitAtFirst c xs
      (x :: r.1, r.2)

/-- Split a character list at every occurrence of `c`. -/
def splitAll (c : Char) : List Char → List (List Char)
  | [] => [[]]
  | x :: xs =>
    let r := splitAll c xs
    if x = c then [] :: r
    else
      match r with
      | [] => [[x]]
      | g :: gs => (x :: g) :: gs

/-! ## The WHATWG URL model -/

/-- One `key=value` query segment, as the WHATWG query parser reads it:
an empty segment yields no pair, a segment without `=` yields the pair
`(segment, "")`, otherwise the segment splits at the first `=`. -/
def parseSeg (seg : List Char) : Option (String × String) :=
  if seg = [] then none
  else
    match splitAtFirst '=' seg with
    | (k, none) => some (⟨k⟩, "")
    | (k, some v) => some (⟨k⟩, ⟨v⟩)

/-- Parse a query string (the part after `?`) into its ordered list of
key/value pairs. -/
def parseQuery (q : List Char) : List (String × String) :=
  (splitAll '&' q).filterMap parseSeg

/-- Serialize one key/value pair as `key=value`. -/
def serializePair (p : String × String) : List Char :=
  p.1.data ++ '=' :: p.2.data

/-- Serialize an ordered list of key/value pairs, joined by `&`. -/
def serializeQuery : List (String × String) → List Char
  | [] => []
  | [p] => serializePair p
  | p :: q :: ps => serializePair p ++ '&' :: serializeQuery (q :: ps)

/-- Model of a WHATWG `URL` object as the source uses it: the serialized
part before the query, plus the ordered search-parameter list. -/
structure Url where
  pre : String
  params : List (String × String)
deriving DecidableEq, Repr

/-- `URL#toString`: the pre-query part, followed by the serialized query
when the parameter list is nonempty. -/
def Url.toString (u : Url) : String :=
  if u.params.isEmpty then u.pre
  else u.pre ++ "?" ++ (⟨serializeQuery u.params⟩ : String)

/-- `URLSearchParams#set` on the parameter list: if the key is present,
the first pair with that key takes the new value and every later pair
with that key is removed; otherwise the pair is appended. -/
def setParamList (k v : String) : List (String × String) → List (String × String)
  | [] => [(k, v)]
  | p :: ps =>
    if p.1 = k then (k, v) :: ps.filter (fun q => q.1 != k)
    else p :: setParamList k v ps

/-- `url.searchParams.set(k, v)`. -/
def Url.setParam (u : Url) (k v : String) : Url :=
  ⟨u.pre, setParamList k v u.params⟩

/-- `url.searchParams.delete(k)`: removes every pair with key `k`. -/
def Url.deleteParam (u : Url) (k : String) : Url :=
  ⟨u.pre, u.params.filter (fun q => q.1 != k)⟩

/-- The `scheme://host` part of an absolute URL string (the common
hierarchical case; a string of another shape is returned unchanged). -/
def originOf (u : String) : String :=
  match splitAtFirst ':' u.data with
  | (sch, some ('/' :: '/' :: rest)) =>
    ⟨sch ++ ':' :: '/' :: '/' :: (splitAtFirst '/' rest).1⟩
  | _ => u

/-- The directory part of the path of `base` (origin included), used to
resolve a relative reference without a leading slash. -/
def dirOf (base : String) : String :=
  let pre : List Char := (splitAtFirst '?' base.data).1
  let o := originOf (⟨pre⟩ : String)
  let path := pre.drop o.data.length
  match splitAtFirst '/' path.reverse with
  | (_, some rest) => o ++ (⟨rest.reverse ++ ['/']⟩ : String)
  | (_, none) => o ++ "/"

/-- Resolution of the pre-query part of a reference against a base URL,
as `new URL(ref, base)` performs it: a reference with a scheme stands
alone, a reference starting with `/` resolves against the origin of the
base, any other reference resolves against the directory of the base. -/
def resolveRef (base refp : String) : String :=
  match refp.data with
  | [] => ⟨(splitAtFirst '?' base.data).1⟩
  | '/' :: _ => originOf base ++ refp
  | l => if ((splitAtFirst '/' l).1.contains ':') then refp else dirOf base ++ refp

/-- The part of a URL string before its first `?`. -/
def refPre (u : String) : List Char :=
  (splitAtFirst '?' u.data).1

/-- The query part of a URL string (after its first `?`, empty when there
is no `?`). -/
def refQuery (u : String) : List Char :=
  match (splitAtFirst '?' u.data).2 with
  | none => []
  | some q => q

/-- `new URL(ref, base)`: the pre-query part of `ref` resolved against
`base`, with the query of `ref` parsed into the search-parameter list. -/
def newURL (ref base : String) : Url :=
  ⟨resolveRef base (⟨refPre ref⟩ : String), parseQuery (refQuery ref)⟩

/-- A URL string after ticket removal: the same URL with every `ticket`
search parameter deleted and the query re-serialized, exactly as
`searchParams.delete` followed by `toString` produces it. -/
def stripTicketUrl (u : String) : String :=
  (Url.mk (⟨refPre u⟩ : String)
    ((parseQuery (refQuery u)).filter (fun q => q.1 != "ticket"))).toString

/-- Well-formedness of one query pair as the query parser produces it:
no separator character inside the key, no pair separator inside the
value (a parsed key never holds `&` or `=`; a parsed value never holds
`&`). -/
def wfPair (p : String × String) : Prop :=
  '&' ∉ p.1.data ∧ '=' ∉ p.1.data ∧ '&' ∉ p.2.data

/-! ## Data model of the strategy (from the source interfaces) -/

/-- `CasOptions` of the source: the strategy configuration. -/
structure CasOptions where
  base : String
  loginRoute : String
  validateRoute : String
  logoutRoute : String
  serverUrl : String
deriving DecidableEq, Repr

/-- The request data the strategy reads: the raw original URL, the
express-parsed query values `RelayState` and `ticket` (absent or a
string; repeated or structured parameters are outside this model), and
the error value the host session layer passes to the callback of
`req.logout` (`none` when local logout succeeds). -/
structure Request where
  originalUrl : String
  relayState : Option String
  ticket : Option String
  logoutErr : Option String
deriving DecidableEq, Repr

/-- JavaScript truthiness of an optional query-string value: present and
nonempty. -/
def truthy : Option String → Bool
  | none => false
  | some s => s != ""

/-- JavaScript string coercion of a possibly-undefined string value, as
string concatenation and `URLSearchParams#set` perform it. -/
def jsUndefOr : Option String → String
  | none => "undefined"
  | some s => s

/-- `CasAuthenticationSuccess` of the source: the parsed success branch. -/
structure CasAuthenticationSuccess (α : Type) where
  user : String
  attributes : α
deriving DecidableEq, Repr

/-- The optional attribute object of the failure branch (the field the
source names with a dollar sign), carrying the optional error code. -/
structure FailureAttrs where
  code : Option String
deriving DecidableEq, Repr

/-- `CasAuthenticationFailure` of the source: the parsed failure branch,
with its optional attribute object. -/
structure CasAuthenticationFailure where
  dollar : Option FailureAttrs
deriving DecidableEq, Repr

/-- `CasServiceResponse` of the source: the root element content, with
the two optional branches (tag names already normalized to lower case). -/
structure CasServiceResponse (α : Type) where
  authenticationsuccess : Option (CasAuthenticationSuccess α)
  authenticationfailure : Option CasAuthenticationFailure
deriving DecidableEq, Repr

/-- The whole parsed XML document handed to the parse callback: it may
lack the `serviceresponse` root element. -/
structure ParsedXml (α : Type) where
  serviceresponse : Option (CasServiceResponse α)
deriving DecidableEq, Repr

/-! ## Outcomes and the verified callback -/

/-- A challenge value reaching `this.fail`: either an `Error` object the
strategy itself constructs (carrying its message), or a value forwarded
from the verify hook callback. -/
inductive Chal (C : Type) where
  | errObj (msg : String)
  | given (c : C)
deriving DecidableEq, Repr

/-- The terminal passport action of one authentication attempt. -/
inductive Outcome (P I C : Type) where
  | success (profile : P) (info : Option I)
  | fail (challenge : Option C)
  | redirect (url : String)
deriving DecidableEq, Repr

/-- The four arguments of one invocation of the verified callback
(`err, profile, info, challenge`); `none` models an absent or falsy
argument.  Error values are carried by their message string. -/
structure DoneArgs (P I C : Type) where
  err : Option String
  profile : Option P
  info : Option I
  challenge : Option C

/-- `onceVerified` of the source: dispatch on the verified-callback
arguments.  A truthy `err` fails with the challenge; a falsy `err` with
a falsy `profile` fails with the challenge; otherwise the attempt
succeeds with the profile and optional info. -/
def onceVerified {P I C : Type} (err : Option String) (profile : Option P)
    (info : Option I) (challenge : Option C) : Outcome P I C :=
  match err with
  | some _ => .fail challenge
  | none =>
    match profile with
    | none => .fail challenge
    | some p => .success p info

/-! ## The ticket validator -/

/-- What the parse callback of `validate` does with one parse result:
either it invokes the completion callback `done` with an `Error` carrying
the given message (and a `null` profile, no info, no challenge), or it
invokes the user verify hook with the extracted profile. -/
inductive ValidateStep (α : Type) where
  | doneErr (msg : String)
  | invokeVerify (profile : CasAuthenticationSuccess α)
deriving DecidableEq, Repr

/-- The dispatch of the parse callback inside `validate`: a parse error
or a null result is a bad response; then a present failure branch fails
with the embedded code (JavaScript-coercing an absent code to the string
`undefined`); then a present success branch goes to the verify hook; a
root with neither branch, or a missing root, is a generic failure. -/
def validateStep {α : Type} : Option String → Option (ParsedXml α) → ValidateStep α
  | some _, _ => .doneErr "Bad response from server"
  | none, none => .doneErr "Bad response from server"
  | none, some r =>
    match r.serviceresponse with
    | none => .doneErr "Authentication failed"
    | some sr =>
      match sr.authenticationfailure with
      | some f => .doneErr ("Authentication failed " ++ jsUndefOr (f.dollar.bind FailureAttrs.code))
      | none =>
        match sr.authenticationsuccess with
        | some p => .invokeVerify p
        | none => .doneErr "Authentication failed"

/-- Completion of a validate step through `onceVerified`: an internal
`done(err, null)` call reaches `onceVerified` with that error and no
challenge; a verify-hook invocation reaches `onceVerified` with whatever
arguments the hook passes to its completion callback. -/
def finishStep {α P I C : Type} (step : ValidateStep α)
    (hook : CasAuthenticationSuccess α → DoneArgs P I C) : Outcome P I C :=
  match step with
  | .doneErr m => onceVerified (some m) none none none
  | .invokeVerify p =>
    let a := hook p
    onceVerified a.err a.profile a.info a.challenge

/-! ## The authenticate entry point -/

/-- A resolved axios response: status, status text and body. -/
structure AxiosResponse where
  status : Nat
  statusText : String
  data : String
deriving DecidableEq, Repr

/-- `getReqService` of the source, before serialization: the request URL
resolved against the public server URL, with the `ticket` search
parameter deleted. -/
def getReqServiceUrl (cfg : CasOptions) (req : Request) : Url :=
  (newURL req.originalUrl cfg.serverUrl).deleteParam "ticket"

/-- `getReqService` of the source: the serialized service URL. -/
def getReqService (cfg : CasOptions) (req : Request) : String :=
  (getReqServiceUrl cfg req).toString

/-- The redirect URL built by `logout`: the logout route resolved against
the base, with `_eventId=next` and the echoed `RelayState` value. -/
def logoutRedirect (cfg : CasOptions) (req : Request) : Url :=
  ((newURL cfg.logoutRoute cfg.base).setParam "_eventId" "next").setParam
    "RelayState" (jsUndefOr req.relayState)

/-- The redirect URL built by the login branch of `authenticate`: the
login route resolved against the base, with the service parameter. -/
def loginRedirect (cfg : CasOptions) (req : Request) : Url :=
  (newURL cfg.loginRoute cfg.base).setParam "service" (getReqService cfg req)

/-- The validation target URL built by `authenticate`: the validate route
resolved against the base, with the ticket and service parameters. -/
def validateTarget (cfg : CasOptions) (req : Request) : Url :=
  ((newURL cfg.validateRoute cfg.base).setParam "ticket" (jsUndefOr req.ticket)).setParam
    "service" (getReqService cfg req)

/-- `authenticate` of the source.  A truthy `RelayState` goes to the
logout redirect (the local `req.logout` error is only logged, so the
result does not depend on it); a falsy ticket goes to the login
redirect; otherwise the validation GET is awaited: a rejected promise
propagates out of `authenticate` (`Except.error`), a 200 response runs
the validate dispatch to completion, and another status fails with an
`Error` carrying the status text. -/
def authenticate {α P I C : Type} (cfg : CasOptions) (req : Request)
    (axiosGet : String → Except String AxiosResponse)
    (parseXml : String → Option String × Option (ParsedXml α))
    (hook : CasAuthenticationSuccess α → DoneArgs P I (Chal C)) :
    Except String (Outcome P I (Chal C)) :=
  if truthy req.relayState then
    .ok (.redirect (logoutRedirect cfg req).toString)
  else if !truthy req.ticket then
    .ok (.redirect (loginRedirect cfg req).toString)
  else
    match axiosGet (validateTarget cfg req).toString with
    | .error e => .error e
    | .ok res =>
      if res.status == 200 then
        let pr := parseXml res.data
        .ok (finishStep (validateStep pr.1 pr.2) hook)
      else
        .ok (.fail (some (Chal.errObj res.statusText)))

/-! ## Concrete instances used by witnesses and counterexamples -/

/-- A concrete attribute shape for the calibration profile. -/
structure EmailAttrs where
  email : String
deriving DecidableEq, Repr

/-- A concrete strategy configuration. -/
def cfg0 : CasOptions :=
  ⟨"https://cas.example.org", "/cas/login", "/cas/p3/serviceValidate", "/cas/logout",
    "https://app.example.org"⟩

/-- A request without logout signal and without ticket. -/
def reqNoTicket : Request := ⟨"/cb?foo=bar", none, none, none⟩

/-- A request carrying a ticket and no logout signal. -/
def reqTicket : Request := ⟨"/cb?ticket=ST-123", none, some "ST-123", none⟩

/-- A request carrying a RelayState parameter with an empty value. -/
def reqEmptyRelay : Request := ⟨"/cb", some "", none, none⟩

/-- A request carrying a nonempty RelayState and also a ticket. -/
def reqRelay : Request := ⟨"/cb", some "abc123", some "ST-9", none⟩

/-- A request whose URL carries two ticket parameters and one other pair. -/
def reqTwoTickets : Request := ⟨"/cb?ticket=a&x=1&ticket=b", none, none, none⟩

/-- An axios behavior that rejects with a transport error. -/
def axRej : String → Except String AxiosResponse := fun _ => .error "ECONNREFUSED"

/-- A parse behavior (never reached by the redirect and rejection paths). -/
def px0 : String → Option String × Option (ParsedXml Unit) := fun _ => (none, none)

/-- A verify hook behavior for `authenticate` instances. -/
def hkA : CasAuthenticationSuccess Unit → DoneArgs Unit Unit (Chal Unit) :=
  fun _ => ⟨none, none, none, none⟩

/-- A verify hook behavior for `finishStep` instances, with string challenges. -/
def hkS : CasAuthenticationSuccess Unit → DoneArgs Unit Unit String :=
  fun _ => ⟨none, none, none, none⟩

/-- A parsed document lacking the `serviceresponse` root. -/
def noRootDoc : ParsedXml Unit := ⟨none⟩

/-- A parsed document whose root carries a failure branch with code
`INVALID_TICKET`. -/
def invalidTicketDoc : ParsedXml Unit := ⟨some ⟨none, some ⟨some ⟨some "INVALID_TICKET"⟩⟩⟩⟩

/-- The calibration profile: user `alice`, attributes `{email: a@x.com}`. -/
def aliceProfile : CasAuthenticationSuccess EmailAttrs := ⟨"alice", ⟨"a@x.com"⟩⟩

/-- A parsed document whose root carries only a success branch with the
calibration profile. -/
def aliceDoc : ParsedXml EmailAttrs := ⟨some ⟨some aliceProfile, none⟩⟩

/-- A root carrying both a success branch and a failure branch. -/
def bothBranches : CasServiceResponse Unit := ⟨some ⟨"bob", ()⟩, some ⟨some ⟨some "X"⟩⟩⟩

/-! ## Claim theorems -/

/-- C1: for every invocation of the completion callback `onceVerified`
with `(err, profile, info, challenge)`: a truthy `err` fails with
`challenge` as the reason; a falsy `err` with a falsy `profile` fails
with `challenge`, identically to the error case; a falsy `err` with a
truthy `profile` succeeds with the profile and the optional info. -/
theorem C1_verified_outcome {P I C : Type} (e : String) (pr : Option P) (p : P)
    (info : Option I) (ch : Option C) :
    onceVerified (some e) pr info ch = .fail ch
    ∧ onceVerified (P := P) none none info ch = .fail ch
    ∧ onceVerified none (some p) info ch = .success p info :=
  ⟨rfl, rfl, rfl⟩

/-- C2: evaluation at the failing input.  When the request carries a
ticket and the validation GET rejects with a transport error, the
`await` inside `authenticate` re-throws the rejection and no surrounding
try/catch exists, so `authenticate` propagates the exception
(`Except.error`) instead of reporting the failure through `fail`. -/
theorem C2_transport_rejection_escapes :
    authenticate (C := Unit) cfg0 reqTicket axRej px0 hkA = .error "ECONNREFUSED" := rfl

/-- C3 counterexample: a response body that parses to a document lacking
the `serviceresponse` root makes the attempt fail with the internal
error `Authentication failed`, not `Bad response from server`, and the
challenge handed to `fail` is `undefined`. -/
theorem C3_missing_root_counterexample :
    validateStep (α := Unit) none (some noRootDoc) = .doneErr "Authentication failed"
    ∧ ("Authentication failed" : String) ≠ "Bad response from server"
    ∧ finishStep (validateStep (α := Unit) none (some noRootDoc)) hkS = .fail none :=
  ⟨rfl, by decide, rfl⟩

/-- C3 amended: a parse error or a null parse result fails with the
internal error `Bad response from server`; a parsed document lacking the
`serviceresponse` root fails with the internal error
`Authentication failed`; in every such case the verification hook is not
invoked (the step is a `done` call) and `fail` receives an undefined
challenge. -/
theorem C3_bad_response_dispatch {α P I C : Type}
    (hook : CasAuthenticationSuccess α → DoneArgs P I C)
    (e : String) (r : Option (ParsedXml α)) :
    validateStep (some e) r = .doneErr "Bad response from server"
    ∧ validateStep (α := α) none none = .doneErr "Bad response from server"
    ∧ validateStep (α := α) none (some ⟨none⟩) = .doneErr "Authentication failed"
    ∧ finishStep (validateStep (some e) r) hook = .fail none
    ∧ finishStep (validateStep (α := α) none none) hook = .fail none
    ∧ finishStep (validateStep (α := α) none (some ⟨none⟩)) hook = .fail none :=
  ⟨rfl, rfl, rfl, rfl, rfl, rfl⟩

/-- C4 counterexample: for the response whose failure branch carries code
`INVALID_TICKET`, the attempt fails, but `fail` receives an undefined
challenge: no reason string at all (in particular none containing
`INVALID_TICKET`) reaches the failure outcome; the code only appears in
the internal `Error` handed to the completion callback. -/
theorem C4_invalid_ticket_counterexample :
    validateStep (α := Unit) none (some invalidTicketDoc)
        = .doneErr "Authentication failed INVALID_TICKET"
    ∧ finishStep (validateStep (α := Unit) none (some invalidTicketDoc)) hkS = .fail none
    ∧ ¬ ∃ s : String,
        finishStep (validateStep (α := Unit) none (some invalidTicketDoc)) hkS
          = .fail (some s) := by
  refine ⟨rfl, rfl, ?_⟩
  rintro ⟨s, hs⟩
  injection hs with h
  exact Option.noConfusion h

/-- C4 amended: for every root whose failure branch carries code
`INVALID_TICKET` (whatever the success branch holds), the attempt fails:
the completion callback receives an `Error` whose message is
`Authentication failed INVALID_TICKET` (containing the code), the
verification hook is never invoked, and the challenge handed to `fail`
is undefined. -/
theorem C4_invalid_ticket_dispatch {α P I C : Type}
    (hook : CasAuthenticationSuccess α → DoneArgs P I C)
    (su : Option (CasAuthenticationSuccess α)) :
    validateStep none (some ⟨some ⟨su, some ⟨some ⟨some "INVALID_TICKET"⟩⟩⟩⟩)
        = .doneErr ("Authentication failed " ++ "INVALID_TICKET")
    ∧ finishStep (validateStep none (some ⟨some ⟨su, some ⟨some ⟨some "INVALID_TICKET"⟩⟩⟩⟩)) hook
        = .fail none :=
  ⟨rfl, rfl⟩

/-- C7: for every parsed response whose root carries the success branch
`user=alice, attributes={email: a@x.com}` and no failure branch, the
validate dispatch hands exactly that profile to the verification hook,
and the final outcome is exactly what `onceVerified` makes of the
arguments the hook later passes to its completion callback: no success
or failure is declared before that callback runs. -/
theorem C7_success_invokes_hook {P I C : Type} (r : ParsedXml EmailAttrs)
    (sr : CasServiceResponse EmailAttrs)
    (h1 : r.serviceresponse = some sr)
    (h2 : sr.authenticationsuccess = some aliceProfile)
    (h3 : sr.authenticationfailure = none) :
    validateStep none (some r) = .invokeVerify aliceProfile
    ∧ ∀ hook : CasAuthenticationSuccess EmailAttrs → DoneArgs P I C,
        finishStep (validateStep none (some r)) hook
          = onceVerified (hook aliceProfile).err (hook aliceProfile).profile
              (hook aliceProfile).info (hook aliceProfile).challenge := by
  have hstep : validateStep none (some r) = .invokeVerify aliceProfile := by
    simp only [validateStep, h1, h2, h3]
  exact ⟨hstep, fun hook => by rw [hstep]; rfl⟩

/-- C7 witness: the hypotheses and the first conclusion hold at the
concrete calibration document. -/
theorem C7_success_invokes_hook_witness :
    (aliceDoc.serviceresponse = some ⟨some aliceProfile, none⟩
      ∧ (⟨some aliceProfile, none⟩ : CasServiceResponse EmailAttrs).authenticationsuccess
          = some aliceProfile
      ∧ (⟨some aliceProfile, none⟩ : CasServiceResponse EmailAttrs).authenticationfailure
          = none)
    ∧ validateStep none (some aliceDoc) = .invokeVerify aliceProfile :=
  ⟨⟨rfl, rfl, rfl⟩,
    (C7_success_invokes_hook (P := Unit) (I := Unit) (C := Unit) aliceDoc _ rfl rfl rfl).1⟩

/-- C9: for every parsed root carrying both a failure branch and a
success branch, the failure branch is checked first: the attempt fails
with the internal error embedding the failure code, the verification
hook is never invoked, and `fail` receives an undefined challenge. -/
theorem C9_failure_precedence {α P I C : Type}
    (hook : CasAuthenticationSuccess α → DoneArgs P I C)
    (sr : CasServiceResponse α) (p0 : CasAuthenticationSuccess α)
    (f : CasAuthenticationFailure)
    (_hs : sr.authenticationsuccess = some p0)
    (hf : sr.authenticationfailure = some f) :
    validateStep none (some ⟨some sr⟩)
        = .doneErr ("Authentication failed " ++ jsUndefOr (f.dollar.bind FailureAttrs.code))
    ∧ (∀ q, validateStep none (some ⟨some sr⟩) ≠ .invokeVerify q)
    ∧ finishStep (validateStep none (some ⟨some sr⟩)) hook = .fail none := by
  have hstep : validateStep none (some ⟨some sr⟩)
      = .doneErr ("Authentication failed " ++ jsUndefOr (f.dollar.bind FailureAttrs.code)) := by
    simp only [validateStep, hf]
  refine ⟨hstep, fun q hq => ?_, by rw [hstep]; rfl⟩
  rw [hstep] at hq
  exact ValidateStep.noConfusion hq

/-- C9 witness: the hypotheses and the first conclusion at a concrete
root carrying both branches. -/
theorem C9_failure_precedence_witness :
    (bothBranches.authenticationsuccess = some ⟨"bob", ()⟩
      ∧ bothBranches.authenticationfailure = some ⟨some ⟨some "X"⟩⟩)
    ∧ validateStep none (some ⟨some bothBranches⟩)
        = .doneErr ("Authentication failed "
            ++ jsUndefOr ((⟨some ⟨some "X"⟩⟩ : CasAuthenticationFailure).dollar.bind
                  FailureAttrs.code)) :=
  ⟨⟨rfl, rfl⟩, (C9_failure_precedence hkS bothBranches _ _ rfl rfl).1⟩

/-- Every search parameter of the resolved service URL has a key other
than `ticket`: `searchParams.delete` removes every pair with that key. -/
theorem getReqServiceUrl_no_ticket (cfg : CasOptions) (req : Request) :
    ∀ p ∈ (getReqServiceUrl cfg req).params, p.1 ≠ "ticket" := by
  intro p hp
  simp only [getReqServiceUrl, Url.deleteParam] at hp
  have h := List.of_mem_filter hp
  simpa [bne_iff_ne] using h

/-- C5: for every request without RelayState and without ticket,
`authenticate` produces exactly one outcome, a redirect to the login
route resolved against the base URL carrying a `service` parameter equal
to the resolved service URL, and that service URL contains no `ticket`
parameter. -/
theorem C5_login_redirect {α P I C : Type} (cfg : CasOptions) (req : Request)
    (axiosGet : String → Except String AxiosResponse)
    (parseXml : String → Option String × Option (ParsedXml α))
    (hook : CasAuthenticationSuccess α → DoneArgs P I (Chal C))
    (h1 : req.relayState = none) (h2 : req.ticket = none) :
    authenticate cfg req axiosGet parseXml hook
        = .ok (.redirect (loginRedirect cfg req).toString)
    ∧ loginRedirect cfg req
        = (newURL cfg.loginRoute cfg.base).setParam "service" (getReqService cfg req)
    ∧ getReqService cfg req = (getReqServiceUrl cfg req).toString
    ∧ ∀ p ∈ (getReqServiceUrl cfg req).params, p.1 ≠ "ticket" := by
  refine ⟨?_, rfl, rfl, getReqServiceUrl_no_ticket cfg req⟩
  simp [authenticate, h1, h2, truthy]

/-- C5 witness: the hypotheses and the redirect conclusion at a concrete
request. -/
theorem C5_login_redirect_witness :
    (reqNoTicket.relayState = none ∧ reqNoTicket.ticket = none)
    ∧ authenticate (C := Unit) cfg0 reqNoTicket axRej px0 hkA
        = .ok (.redirect (loginRedirect cfg0 reqNoTicket).toString) :=
  ⟨⟨rfl, rfl⟩, (C5_login_redirect cfg0 reqNoTicket axRej px0 hkA rfl rfl).1⟩

/-- C6 counterexample: a request carrying a `RelayState` parameter with
an empty value fails the truthiness guard, so `authenticate` issues the
login redirect, not the logout redirect the claim requires. -/
theorem C6_empty_relaystate_counterexample :
    authenticate (C := Unit) cfg0 reqEmptyRelay axRej px0 hkA
        = .ok (.redirect (loginRedirect cfg0 reqEmptyRelay).toString)
    ∧ authenticate (C := Unit) cfg0 reqEmptyRelay axRej px0 hkA
        ≠ .ok (.redirect (logoutRedirect cfg0 reqEmptyRelay).toString) := by
  refine ⟨rfl, fun h => ?_⟩
  injection h with h1
  injection h1 with h2
  exact absurd h2 (by decide)

/-- C6 amended: for every request whose `RelayState` query value is
present and nonempty (truthy), regardless of ticket presence,
`authenticate` redirects to the logout route resolved against the base
URL with `_eventId=next` and the `RelayState` value echoed, and the
outcome does not depend on the result of the best-effort local logout
(whose error is only logged). -/
theorem C6_logout_redirect {α P I C : Type} (cfg : CasOptions) (req : Request)
    (axiosGet : String → Except String AxiosResponse)
    (parseXml : String → Option String × Option (ParsedXml α))
    (hook : CasAuthenticationSuccess α → DoneArgs P I (Chal C))
    (s : String) (h1 : req.relayState = some s) (h2 : s ≠ "") :
    authenticate cfg req axiosGet parseXml hook
        = .ok (.redirect
            (((newURL cfg.logoutRoute cfg.base).setParam "_eventId" "next").setParam
                "RelayState" s).toString)
    ∧ ∀ e : Option String,
        authenticate cfg { req with logoutErr := e } axiosGet parseXml hook
          = authenticate cfg req axiosGet parseXml hook := by
  constructor
  · simp [authenticate, h1, truthy, h2, logoutRedirect, jsUndefOr]
  · intro e
    rfl

/-- C6 witness: the hypotheses and the redirect conclusion at a concrete
request carrying both a nonempty RelayState and a ticket. -/
theorem C6_logout_redirect_witness :
    (reqRelay.relayState = some "abc123" ∧ "abc123" ≠ "")
    ∧ authenticate (C := Unit) cfg0 reqRelay axRej px0 hkA
        = .ok (.redirect
            (((newURL cfg0.logoutRoute cfg0.base).setParam "_eventId" "next").setParam
                "RelayState" "abc123").toString) :=
  ⟨⟨rfl, by decide⟩,
    (C6_logout_redirect cfg0 reqRelay axRej px0 hkA "abc123" rfl (by decide)).1⟩

/-- C10: service URL resolution removes every occurrence of the `ticket`
query parameter and leaves the pre-query part (host and path) and every
other query parameter unchanged: the resolved parameter list is exactly
the original list with the `ticket` pairs filtered out. -/
theorem C10_ticket_removal_frame (cfg : CasOptions) (req : Request) :
    (getReqServiceUrl cfg req).pre = (newURL req.originalUrl cfg.serverUrl).pre
    ∧ (getReqServiceUrl cfg req).params
        = (newURL req.originalUrl cfg.serverUrl).params.filter (fun q => q.1 != "ticket")
    ∧ (∀ p ∈ (getReqServiceUrl cfg req).params, p.1 ≠ "ticket")
    ∧ ∀ p ∈ (newURL req.originalUrl cfg.serverUrl).params,
        p.1 ≠ "ticket" → p ∈ (getReqServiceUrl cfg req).params := by
  refine ⟨rfl, rfl, getReqServiceUrl_no_ticket cfg req, ?_⟩
  intro p hp hne
  simp only [getReqServiceUrl, Url.deleteParam]
  exact List.mem_filter.mpr ⟨hp, by simpa [bne_iff_ne] using hne⟩

/-- C10 witness: at a request URL carrying two `ticket` parameters, the
pair `x=1` is kept by the resolution. -/
theorem C10_ticket_removal_frame_witness :
    (("x", "1") ∈ (newURL reqTwoTickets.originalUrl cfg0.serverUrl).params
      ∧ ("x", "1").1 ≠ "ticket")
    ∧ ("x", "1") ∈ (getReqServiceUrl cfg0 reqTwoTickets).params :=
  ⟨⟨by decide, by decide⟩,
    (C10_ticket_removal_frame cfg0 reqTwoTickets).2.2.2 ("x", "1") (by decide) (by decide)⟩

/-! ## Lemmas about query parsing and serialization (for C8) -/

theorem splitAtFirst_of_not_mem {c : Char} {l : List Char} (h : c ∉ l) :
    splitAtFirst c l = (l, none) := by
  induction l with
  | nil => rfl
  | cons x xs ih =>
    have hx : ¬x = c := fun hxc => h (by simp [hxc])
    have hxs : c ∉ xs := fun hm => h (List.mem_cons_of_mem _ hm)
    simp [splitAtFirst, hx, ih hxs]

theorem splitAtFirst_append {c : Char} {p q : List Char} (h : c ∉ p) :
    splitAtFirst c (p ++ c :: q) = (p, some q) := by
  induction p with
  | nil => simp [splitAtFirst]
  | cons x xs ih =>
    have hx : ¬x = c := fun hxc => h (by simp [hxc])
    have hxs : c ∉ xs := fun hm => h (List.mem_cons_of_mem _ hm)
    simp [splitAtFirst, hx, ih hxs]

theorem splitAtFirst_fst_not_mem (c : Char) (l : List Char) :
    c ∉ (splitAtFirst c l).1 := by
  induction l with
  | nil => simp [splitAtFirst]
  | cons x xs ih =>
    by_cases hx : x = c
    · simp [splitAtFirst, hx]
    · simp only [splitAtFirst, if_neg hx, List.mem_cons, not_or]
      exact ⟨fun hcx => hx hcx.symm, ih⟩

theorem mem_of_mem_splitAtFirst_fst {c x : Char} {l : List Char}
    (h : x ∈ (splitAtFirst c l).1) : x ∈ l := by
  induction l with
  | nil => simp [splitAtFirst] at h
  | cons y ys ih =>
    by_cases hy : y = c
    · simp [splitAtFirst, hy] at h
    · simp only [splitAtFirst, if_neg hy, List.mem_cons] at h
      rcases h with h | h
      · exact h ▸ List.mem_cons_self y ys
      · exact List.mem_cons_of_mem _ (ih h)

theorem mem_of_mem_splitAtFirst_snd {c x : Char} {l b : List Char}
    (hs : (splitAtFirst c l).2 = some b) (h : x ∈ b) : x ∈ l := by
  induction l with
  | nil => simp [splitAtFirst] at hs
  | cons y ys ih =>
    by_cases hy : y = c
    · simp only [splitAtFirst, if_pos hy, Option.some.injEq] at hs
      exact List.mem_cons_of_mem _ (hs ▸ h)
    · simp only [splitAtFirst, if_neg hy] at hs
      exact List.mem_cons_of_mem _ (ih hs)

theorem splitAll_ne_nil (c : Char) (l : List Char) : splitAll c l ≠ [] := by
  induction l with
  | nil => simp [splitAll]
  | cons x xs ih =>
    by_cases hx : x = c
    · simp [splitAll, hx]
    · simp only [splitAll, if_neg hx]
      cases h : splitAll c xs with
      | nil => simp
      | cons g gs => simp

theorem mem_splitAll_not_mem {c : Char} {l seg : List Char}
    (h : seg ∈ splitAll c l) : c ∉ seg := by
  induction l generalizing seg with
  | nil =>
    simp only [splitAll, List.mem_singleton] at h
    simp [h]
  | cons x xs ih =>
    by_cases hx : x = c
    · simp only [splitAll, if_pos hx, List.mem_cons] at h
      rcases h with h | h
      · simp [h]
      · exact ih h
    · cases hsp : splitAll c xs with
      | nil => exact absurd hsp (splitAll_ne_nil c xs)
      | cons g gs =>
        simp only [splitAll, if_neg hx, hsp, List.mem_cons] at h
        rcases h with h | h
        · subst h
          have hg : c ∉ g := ih (hsp ▸ List.mem_cons_self g gs)
          simp only [List.mem_cons, not_or]
          exact ⟨fun hcx => hx hcx.symm, hg⟩
        · exact ih (hsp ▸ List.mem_cons_of_mem _ h)

theorem splitAll_of_not_mem {c : Char} {l : List Char} (h : c ∉ l) :
    splitAll c l = [l] := by
  induction l with
  | nil => rfl
  | cons x xs ih =>
    have hx : ¬x = c := fun hxc => h (by simp [hxc])
    have hxs : c ∉ xs := fun hm => h (List.mem_cons_of_mem _ hm)
    simp [splitAll, hx, ih hxs]

theorem splitAll_append {c : Char} {seg rest : List Char} (h : c ∉ seg) :
    splitAll c (seg ++ c :: rest) = seg :: splitAll c rest := by
  induction seg with
  | nil => simp [splitAll]
  | cons x xs ih =>
    have hx : ¬x = c := fun hxc => h (by simp [hxc])
    have hxs : c ∉ xs := fun hm => h (List.mem_cons_of_mem _ hm)
    cases hsp : splitAll c (xs ++ c :: rest) with
    | nil => exact absurd hsp (splitAll_ne_nil c _)
    | cons g gs =>
      have hih := ih hxs
      rw [hsp] at hih
      injection hih with hg hgs
      subst hg
      subst hgs
      simp [splitAll, hx, hsp]

theorem parseSeg_wf {seg : List Char} {p : String × String} (hseg : '&' ∉ seg)
    (h : parseSeg seg = some p) : wfPair p := by
  by_cases hs : seg = []
  · simp [parseSeg, hs] at h
  · rw [parseSeg, if_neg hs] at h
    cases hsp : splitAtFirst '=' seg with
    | mk k o =>
      cases o with
      | none =>
        rw [hsp] at h
        injection h with h
        subst h
        refine ⟨?_, ?_, ?_⟩
        · exact fun hm => hseg (mem_of_mem_splitAtFirst_fst (c := '=') (hsp ▸ hm))
        · exact fun hm => splitAtFirst_fst_not_mem '=' seg (hsp ▸ hm)
        · simp [String.data]
      | some v =>
        rw [hsp] at h
        injection h with h
        subst h
        refine ⟨?_, ?_, ?_⟩
        · exact fun hm => hseg (mem_of_mem_splitAtFirst_fst (c := '=') (hsp ▸ hm))
        · exact fun hm => splitAtFirst_fst_not_mem '=' seg (hsp ▸ hm)
        · exact fun hm => hseg (mem_of_mem_splitAtFirst_snd (c := '=') (by rw [hsp]) hm)

theorem parseQuery_wf {q : List Char} : ∀ p ∈ parseQuery q, wfPair p := by
  intro p hp
  rw [parseQuery, List.mem_filterMap] at hp
  obtain ⟨seg, hseg, hparse⟩ := hp
  exact parseSeg_wf (mem_splitAll_not_mem hseg) hparse

theorem parseSeg_serializePair {p : String × String} (h : wfPair p) :
    parseSeg (serializePair p) = some p := by
  obtain ⟨⟨kd⟩, ⟨vd⟩⟩ := p
  obtain ⟨h1, h2, h3⟩ := h
  have hne : kd ++ '=' :: vd ≠ [] := by
    intro hc
    exact List.noConfusion (List.append_eq_nil.mp hc).2
  rw [serializePair, parseSeg]
  simp only [String.data] at h2 ⊢
  rw [if_neg hne, splitAtFirst_append h2]

theorem serializePair_no_amp {p : String × String} (h : wfPair p) :
    '&' ∉ serializePair p := by
  obtain ⟨h1, h2, h3⟩ := h
  intro hc
  rcases List.mem_append.mp hc with hk | hv
  · exact h1 hk
  · rcases List.mem_cons.mp hv with heq | hvv
    · exact absurd heq (by decide)
    · exact h3 hvv

theorem parseQuery_serializeQuery {ps : List (String × String)}
    (h : ∀ p ∈ ps, wfPair p) : parseQuery (serializeQuery ps) = ps := by
  induction ps with
  | nil => rfl
  | cons p ps ih =>
    have hw := h p (List.mem_cons_self p ps)
    have hno := serializePair_no_amp hw
    cases ps with
    | nil =>
      rw [show serializeQuery [p] = serializePair p from rfl, parseQuery,
        splitAll_of_not_mem hno]
      simp [parseSeg_serializePair hw]
    | cons p2 ps2 =>
      have hrest : ∀ x ∈ p2 :: ps2, wfPair x := fun x hx => h x (List.mem_cons_of_mem _ hx)
      rw [show serializeQuery (p :: p2 :: ps2)
            = serializePair p ++ '&' :: serializeQuery (p2 :: ps2) from rfl,
        parseQuery, splitAll_append hno, List.filterMap_cons, parseSeg_serializePair hw]
      show p :: parseQuery (serializeQuery (p2 :: ps2)) = p :: p2 :: ps2
      rw [ih hrest]

/-- Components of a stripped URL string: the pre-query part is kept
verbatim, and parsing its query back gives exactly the original pairs
with the `ticket` pairs removed. -/
theorem stripTicketUrl_spec (u : String) :
    refPre (stripTicketUrl u) = refPre u
    ∧ parseQuery (refQuery (stripTicketUrl u))
        = (parseQuery (refQuery u)).filter (fun q => q.1 != "ticket") := by
  have hwf : ∀ p ∈ (parseQuery (refQuery u)).filter (fun q => q.1 != "ticket"), wfPair p :=
    fun p hp => parseQuery_wf p (List.mem_of_mem_filter hp)
  have hnq : '?' ∉ refPre u := splitAtFirst_fst_not_mem '?' u.data
  cases hemp : (parseQuery (refQuery u)).filter (fun q => q.1 != "ticket") with
  | nil =>
    have hstr : stripTicketUrl u = (⟨refPre u⟩ : String) := by
      rw [stripTicketUrl, hemp]
      rfl
    rw [hstr]
    constructor
    · show (splitAtFirst '?' (refPre u)).1 = refPre u
      rw [splitAtFirst_of_not_mem hnq]
    · show parseQuery (refQuery (⟨refPre u⟩ : String)) = []
      rw [refQuery]
      rw [show ((⟨refPre u⟩ : String)).data = refPre u from rfl,
        splitAtFirst_of_not_mem hnq]
      rfl
  | cons p ps =>
    have hwfc : ∀ x ∈ p :: ps, wfPair x := hemp ▸ hwf
    have hstr : (stripTicketUrl u).data = refPre u ++ '?' :: serializeQuery (p :: ps) := by
      rw [stripTicketUrl, hemp]
      show ((⟨refPre u⟩ : String) ++ "?" ++ (⟨serializeQuery (p :: ps)⟩ : String)).data
        = refPre u ++ '?' :: serializeQuery (p :: ps)
      rw [String.data_append, String.data_append, List.append_assoc]
      rfl
    constructor
    · show (splitAtFirst '?' (stripTicketUrl u).data).1 = refPre u
      rw [hstr, splitAtFirst_append hnq]
    · show parseQuery (refQuery (stripTicketUrl u)) = p :: ps
      rw [refQuery, hstr, splitAtFirst_append hnq]
      exact parseQuery_serializeQuery hwfc

/-- C8: for every request whose URL already lacks a `ticket` query
parameter, resolving the service URL yields the same string as resolving
it from the same request after ticket removal. -/
theorem C8_service_resolution_idempotent (cfg : CasOptions) (req : Request)
    (h : ∀ p ∈ parseQuery (refQuery req.originalUrl), p.1 ≠ "ticket") :
    getReqService cfg req
      = getReqService cfg { req with originalUrl := stripTicketUrl req.originalUrl } := by
  have hfilter : (parseQuery (refQuery req.originalUrl)).filter (fun q => q.1 != "ticket")
      = parseQuery (refQuery req.originalUrl) :=
    List.filter_eq_self.mpr (fun p hp => by simpa [bne_iff_ne] using h p hp)
  have hsp := stripTicketUrl_spec req.originalUrl
  show Url.toString ((newURL req.originalUrl cfg.serverUrl).deleteParam "ticket")
      = Url.toString ((newURL (stripTicketUrl req.originalUrl) cfg.serverUrl).deleteParam
          "ticket")
  rw [newURL, newURL, Url.deleteParam, Url.deleteParam]
  dsimp only
  rw [show refPre (stripTicketUrl req.originalUrl) = refPre req.originalUrl from hsp.1]
  rw [show parseQuery (refQuery (stripTicketUrl req.originalUrl))
        = (parseQuery (refQuery req.originalUrl)).filter (fun q => q.1 != "ticket")
      from hsp.2]
  rw [hfilter, hfilter]

/-- C8 witness: at a concrete request without a ticket parameter, both
resolutions agree. -/
theorem C8_service_resolution_idempotent_witness :
    (∀ p ∈ parseQuery (refQuery reqNoTicket.originalUrl), p.1 ≠ "ticket")
    ∧ getReqService cfg0 reqNoTicket
        = getReqService cfg0 { reqNoTicket with
            originalUrl := stripTicketUrl reqNoTicket.originalUrl } :=
  ⟨by decide, C8_service_resolution_idempotent cfg0 reqNoTicket (by decide)⟩

end PassportCas
